import Mathlib

/-!
Shallow embedding of the CCTelegram security tooling:
`scripts/security-config-check.py` (check evaluation, scoring, report assembly)
and `scripts/scorecard-compare.py` (check analysis and priority ranking).

The filesystem is modelled as an immutable snapshot: a list of file entries
(path, permission bits, contents), where contents are either decodable text
or an unreadable marker (permission denied / undecodable encoding), plus the
parse result of `mcp-server/package.json`. Python exceptions escaping a
function are modelled with `Except String`. Scores are `Int` (Python ints)
in the config checker and `Rat` (Python floats) in the scorecard comparer.
-/

/-! ## String scanning primitives (model of the `re` / `in` usages) -/

/-- Suffix of `l` after the first occurrence of `pat`, if `pat` occurs in `l`. -/
def after_first (pat : List Char) : List Char → Option (List Char)
  | [] => if pat == [] then some [] else none
  | c :: cs =>
    if pat.isPrefixOf (c :: cs) then some ((c :: cs).drop pat.length)
    else after_first pat cs

/-- Python `pat in hay` on lists of characters. -/
def list_contains_sub (pat l : List Char) : Bool := (after_first pat l).isSome

/-- Python substring test `pat in hay`. -/
def str_contains (hay pat : String) : Bool := list_contains_sub pat.toList hay.toList

/-- Model of regex `a.*b` searched within one line (`.` never matches a newline):
some occurrence of `a` is followed, later in the line, by an occurrence of `b`. -/
def dot_star_match (a b : List Char) (line : List Char) : Bool :=
  match after_first a line with
  | some rest => list_contains_sub b rest
  | none => false

/-- Characters matched by regex `\s` (ASCII whitespace). -/
def is_space_char (c : Char) : Bool :=
  c == ' ' || c == Char.ofNat 9 || c == Char.ofNat 10 || c == Char.ofNat 13 ||
    c == Char.ofNat 11 || c == Char.ofNat 12

/-- Characters matched by the regex class of a double or single quote. -/
def is_quote_char (c : Char) : Bool := c == Char.ofNat 34 || c == Char.ofNat 39

/-- Skip characters matched by `\s*`. -/
def drop_spaces : List Char → List Char
  | [] => []
  | c :: cs => if is_space_char c then drop_spaces cs else c :: cs

/-- Model of the regex fragment: a quote, at least `minLen` non-quote
characters, then a quote. -/
def quoted_value (minLen : Nat) : List Char → Bool
  | [] => false
  | c :: cs =>
    is_quote_char c &&
      (let body := cs.takeWhile (fun d => !(is_quote_char d))
       match cs.drop body.length with
       | [] => false
       | _ :: _ => decide (minLen ≤ body.length))

/-- Match of a hardcoded-secret rule regex anchored at the start of `l`:
keyword, `\s*`, an equal sign, `\s*`, then a long quoted value. -/
def secret_at (kw : List Char) (minLen : Nat) (l : List Char) : Bool :=
  kw.isPrefixOf l &&
    (match drop_spaces (l.drop kw.length) with
     | c :: rest => c == '=' && quoted_value minLen (drop_spaces rest)
     | [] => false)

/-- Unanchored search for a hardcoded-secret rule regex. -/
def secret_scan (kw : List Char) (minLen : Nat) : List Char → Bool
  | [] => false
  | c :: cs => secret_at kw minLen (c :: cs) || secret_scan kw minLen cs

/-- ASCII lowercasing of one character (model of `str.lower` / `re.IGNORECASE`
on the ASCII texts these checks scan). -/
def char_lower (c : Char) : Char :=
  if 65 ≤ c.toNat && c.toNat ≤ 90 then Char.ofNat (c.toNat + 32) else c

/-- Lowercase a whole character list. -/
def lower_list (l : List Char) : List Char := l.map char_lower

/-- Split a character list at newlines (the lines regex `.` can scan). -/
def split_lines : List Char → List (List Char)
  | [] => [[]]
  | c :: cs =>
    if c == Char.ofNat 10 then [] :: split_lines cs
    else
      match split_lines cs with
      | l :: ls => (c :: l) :: ls
      | [] => [[c]]

/-- Python `pat in hay.lower()`. -/
def str_contains_lower (hay pat : String) : Bool :=
  list_contains_sub pat.toList (lower_list hay.toList)

/-- Case-insensitive search for one hardcoded-secret rule in file contents
(the whole text is lowercased; the rules' keywords are lowercase). -/
def secret_pattern_match (kw : String) (minLen : Nat) (content : String) : Bool :=
  secret_scan kw.toList minLen (lower_list content.toList)

/-- Case-insensitive per-line search for regex `a.*b` in file contents. -/
def log_pattern_match (a b : String) (content : String) : Bool :=
  (split_lines (lower_list content.toList)).any (fun line => dot_star_match a.toList b.toList line)

/-! ## Project snapshot (filesystem model) -/

/-- Contents of a file: decodable text, or unreadable
(permission denied / undecodable encoding: `read_text` raises). -/
inductive FileData where
  | text (s : String)
  | unreadable
deriving DecidableEq

/-- One file of the project snapshot: path relative to the project root,
permission bits (last three octal digits of the mode), contents. -/
structure FileEntry where
  path : String
  perm : Nat
  data : FileData
deriving DecidableEq

/-- Parse result of `mcp-server/package.json`: the keys of its `scripts`
object and of its `dependencies` object. -/
structure PkgInfo where
  scriptsKeys : List String
  depsKeys : List String
deriving DecidableEq

/-- Immutable project snapshot. `pkgJson` is the result `json.loads` would
give on `mcp-server/package.json` (`none` models a parse error). -/
structure FS where
  files : List FileEntry
  pkgJson : Option PkgInfo
deriving DecidableEq

/-- Path prefix test, on the character lists. -/
def str_starts (s pre : String) : Bool := pre.toList.isPrefixOf s.toList

/-- Path suffix test, on the character lists. -/
def str_ends (s post : String) : Bool := post.toList.isSuffixOf s.toList

def FS.lookup (fs : FS) (p : String) : Option FileEntry :=
  fs.files.find? (fun e => e.path == p)

/-- `Path.exists` for a file path. -/
def FS.pathExists (fs : FS) (p : String) : Bool := (fs.lookup p).isSome

/-- `Path.exists` for a directory: some file lives below it. -/
def FS.dirExists (fs : FS) (d : String) : Bool :=
  fs.files.any (fun e => str_starts e.path (d ++ "/"))

/-- `dir.rglob (asterisk ++ ext)`: all files below `d` whose name ends in
`ext`, in snapshot (traversal) order. -/
def FS.rglob (fs : FS) (d : String) (ext : String) : List FileEntry :=
  fs.files.filter (fun e => str_starts e.path (d ++ "/") && str_ends e.path ext)

/-- `dir.glob (asterisk ++ ext)`: direct children of `d` whose name ends in `ext`. -/
def FS.globDirect (fs : FS) (d : String) (ext : String) : List FileEntry :=
  fs.files.filter (fun e =>
    str_starts e.path (d ++ "/") &&
      !((e.path.toList.drop (d ++ "/").toList.length).contains ('/')) &&
      str_ends e.path ext)

/-- `file.read_text()`: the text, or an exception for unreadable contents. -/
def read_entry (e : FileEntry) : Except String String :=
  match e.data with
  | .text s => .ok s
  | .unreadable => .error ("unreadable: " ++ e.path)

/-- Read a path: missing files and unreadable contents raise. -/
def FS.readPath (fs : FS) (p : String) : Except String String :=
  match fs.lookup p with
  | some e => read_entry e
  | none => .error ("not found: " ++ p)

/-! ## Shared results accumulator (`self.results`) -/

/-- One logged security issue (`log_issue`). -/
structure Issue where
  component : String
  severity : String
  message : String
  recommendation : String
deriving DecidableEq

/-- One logged recommendation (`log_recommendation`). -/
structure Recommendation where
  component : String
  message : String
deriving DecidableEq

/-- The shared mutable `self.results` record: per-check scores (insertion
ordered), issues and recommendations, all append-only during a run. -/
structure Results where
  scores : List (String × Int)
  issues : List Issue
  recs : List Recommendation
deriving DecidableEq

def empty_results : Results := ⟨[], [], []⟩

/-- `log_issue`: append an issue to the shared results. -/
def log_issue (r : Results) (component severity message recommendation : String) : Results :=
  { r with issues := r.issues ++ [⟨component, severity, message, recommendation⟩] }

/-- `log_recommendation`: append a recommendation to the shared results. -/
def log_recommendation (r : Results) (component message : String) : Results :=
  { r with recs := r.recs ++ [⟨component, message⟩] }

/-- `self.results["scores"][name] = score` (each check uses its own fresh key). -/
def set_score (r : Results) (name : String) (score : Int) : Results :=
  { r with scores := r.scores ++ [(name, score)] }

/-! ## The eight checks of `SecurityConfigChecker` -/

/-- A check body: reads the snapshot, appends to the shared results, and
either returns its score or raises (models a Python exception escaping). -/
abbrev CheckFun := FS → Results → Results × Except String Int

def sensitive_files : List String :=
  [".env", "config.toml", "mcp-server/.env", "mcp-server/config.json"]

def octal_digit (n : Nat) : Char := Char.ofNat (48 + n % 8)

/-- The last three octal digits of a file mode, as printed in the issue text. -/
def octal3 (perm : Nat) : String :=
  String.mk [octal_digit (perm / 64), octal_digit (perm / 8), octal_digit perm]

/-- Loop of `check_file_permissions` over the sensitive files. -/
def perm_fold : List String → FS → Int → Results → Int × Results
  | [], _, score, r => (score, r)
  | p :: ps, fs, score, r =>
    match fs.lookup p with
    | none => perm_fold ps fs score r
    | some e =>
      if e.perm % 8 > 0 then
        perm_fold ps fs (score - 2)
          (log_issue r ("FilePermissions") ("warning")
            (p ++ " is readable by others (permissions: " ++ octal3 e.perm ++ ")")
            ("Run: chmod 600 " ++ p))
      else perm_fold ps fs score r

/-- `check_file_permissions`: start at 10, subtract 2 per sensitive file
readable by others. -/
def check_file_permissions : CheckFun := fun fs r =>
  let sr := perm_fold sensitive_files fs 10 r
  (set_score sr.2 ("file_permissions") sr.1, .ok sr.1)

/-- A hardcoded-secret rule: lowercase keyword, minimum quoted length,
issue description. -/
structure SecretRule where
  keyword : String
  minLen : Nat
  descr : String
deriving DecidableEq

def hardcoded_patterns : List SecretRule :=
  [⟨"token", 20, "Hardcoded token"⟩, ⟨"key", 16, "Hardcoded key"⟩,
   ⟨"password", 8, "Hardcoded password"⟩, ⟨"secret", 12, "Hardcoded secret"⟩]

/-- Inner rule loop of `_check_file_for_patterns` on decoded contents. -/
def secret_rules_fold : List SecretRule → String → String → Int → Results → Int × Results
  | [], _, _, score, r => (score, r)
  | rule :: rest, content, path, score, r =>
    if secret_pattern_match rule.keyword rule.minLen content &&
        !(str_contains content ("process.env")) then
      secret_rules_fold rest content path (score - 3)
        (log_issue r ("HardcodedSecrets") ("critical")
          (rule.descr ++ " found in " ++ path)
          ("Move secrets to environment variables"))
    else secret_rules_fold rest content path score r

/-- `_check_file_for_patterns`: a read failure is swallowed (zero matches);
the returned score is the passed score minus 3 per matching rule. -/
def check_file_for_patterns (e : FileEntry) (patterns : List SecretRule)
    (score : Int) (r : Results) : Int × Results :=
  match e.data with
  | .unreadable => (score, r)
  | .text content => secret_rules_fold patterns content e.path score r

/-- File loop of `check_environment_variables`: each call passes the check's
(never reassigned) local `score` and discards the returned score, exactly as
the source does. -/
def scan_src_files : List FileEntry → List SecretRule → Int → Results → Results
  | [], _, _, r => r
  | e :: es, pats, score, r =>
    scan_src_files es pats score (check_file_for_patterns e pats score r).2

/-- `check_environment_variables`: scan bridge and MCP sources for hardcoded
secrets, then subtract 1 per missing environment example file. -/
def check_environment_variables : CheckFun := fun fs r =>
  let score : Int := 10
  let r :=
    if fs.dirExists ("src") then
      let r := scan_src_files (fs.rglob ("src") (".rs")) hardcoded_patterns score r
      scan_src_files (fs.rglob ("src") (".ts")) hardcoded_patterns score r
    else r
  let r :=
    if fs.dirExists ("mcp-server/src") then
      let r := scan_src_files (fs.rglob ("mcp-server/src") (".rs")) hardcoded_patterns score r
      scan_src_files (fs.rglob ("mcp-server/src") (".ts")) hardcoded_patterns score r
    else r
  let sr : Int × Results :=
    if fs.pathExists ("config.example.toml") then (score, r)
    else (score - 1, log_recommendation r ("Bridge")
      ("Create config.example.toml with example configuration"))
  let sr : Int × Results :=
    if fs.pathExists ("mcp-server/.env.example") then sr
    else (sr.1 - 1, log_recommendation sr.2 ("MCP Server")
      ("Create .env.example with example configuration"))
  (set_score sr.2 ("environment_variables") sr.1, .ok sr.1)

/-- `_check_bridge_auth_config`: membership test over candidate files;
`read_text` failures propagate (no try/except here). -/
def bridge_auth_loop (fs : FS) : List String → Except String Bool
  | [] => .ok false
  | p :: ps =>
    match fs.lookup p with
    | none => bridge_auth_loop fs ps
    | some e =>
      match read_entry e with
      | .error m => .error m
      | .ok content =>
        if str_contains content ("TELEGRAM_ALLOWED_USERS") || str_contains content ("user_id") then
          .ok true
        else bridge_auth_loop fs ps

def check_bridge_auth_config (fs : FS) : Except String Bool :=
  bridge_auth_loop fs ["src/telegram/handlers.rs", "src/utils/security.rs"]

/-- `_check_mcp_auth_config`: same shape for the MCP server. -/
def mcp_auth_loop (fs : FS) : List String → Except String Bool
  | [] => .ok false
  | p :: ps =>
    match fs.lookup p with
    | none => mcp_auth_loop fs ps
    | some e =>
      match read_entry e with
      | .error m => .error m
      | .ok content =>
        if str_contains content ("MCP_API_KEYS") || str_contains content ("authenticate") then
          .ok true
        else mcp_auth_loop fs ps

def check_mcp_auth_config (fs : FS) : Except String Bool :=
  mcp_auth_loop fs ["mcp-server/src/security.ts", "mcp-server/src/index.ts"]

/-- `check_authentication_config`: presence check, +5 per component. -/
def check_authentication_config : CheckFun := fun fs r =>
  match check_bridge_auth_config fs with
  | .error m => (r, .error m)
  | .ok bridgeOk =>
    let sr : Int × Results :=
      if bridgeOk then (5, r)
      else (0, log_issue r ("BridgeAuth") ("warning")
        ("Bridge authentication may not be properly configured")
        ("Ensure TELEGRAM_ALLOWED_USERS is set"))
    match check_mcp_auth_config fs with
    | .error m => (sr.2, .error m)
    | .ok mcpOk =>
      let sr : Int × Results :=
        if mcpOk then (sr.1 + 5, sr.2)
        else (sr.1, log_issue sr.2 ("MCPAuth") ("warning")
          ("MCP Server authentication may not be properly configured")
          ("Ensure MCP_API_KEYS is configured"))
      (set_score sr.2 ("authentication") sr.1, .ok sr.1)

/-- `_check_bridge_rate_limiting`: case-insensitive marker membership. -/
def bridge_rate_loop (fs : FS) : List String → Except String Bool
  | [] => .ok false
  | p :: ps =>
    match fs.lookup p with
    | none => bridge_rate_loop fs ps
    | some e =>
      match read_entry e with
      | .error m => .error m
      | .ok content =>
        if str_contains_lower content ("rate_limit") || str_contains_lower content ("throttle") then
          .ok true
        else bridge_rate_loop fs ps

def check_bridge_rate_limiting (fs : FS) : Except String Bool :=
  bridge_rate_loop fs ["src/utils/security.rs", "src/telegram/handlers.rs"]

/-- `_check_mcp_rate_limiting`. -/
def mcp_rate_loop (fs : FS) : List String → Except String Bool
  | [] => .ok false
  | p :: ps =>
    match fs.lookup p with
    | none => mcp_rate_loop fs ps
    | some e =>
      match read_entry e with
      | .error m => .error m
      | .ok content =>
        if str_contains_lower content ("rate") && str_contains_lower content ("limit") then
          .ok true
        else mcp_rate_loop fs ps

def check_mcp_rate_limiting (fs : FS) : Except String Bool :=
  mcp_rate_loop fs ["mcp-server/src/security.ts", "mcp-server/package.json"]

/-- `check_rate_limiting`: presence check, +5 per component. -/
def check_rate_limiting : CheckFun := fun fs r =>
  match check_bridge_rate_limiting fs with
  | .error m => (r, .error m)
  | .ok bridgeOk =>
    let sr : Int × Results :=
      if bridgeOk then (5, r)
      else (0, log_issue r ("BridgeRateLimit") ("medium")
        ("Bridge rate limiting not found")
        ("Implement rate limiting for user requests"))
    match check_mcp_rate_limiting fs with
    | .error m => (sr.2, .error m)
    | .ok mcpOk =>
      let sr : Int × Results :=
        if mcpOk then (sr.1 + 5, sr.2)
        else (sr.1, log_issue sr.2 ("MCPRateLimit") ("medium")
          ("MCP Server rate limiting not found")
          ("Implement rate limiting for API requests"))
      (set_score sr.2 ("rate_limiting") sr.1, .ok sr.1)

/-- `_check_bridge_input_validation`: case-sensitive markers over all bridge
sources. -/
def bridge_validation_loop : List FileEntry → Except String Bool
  | [] => .ok false
  | e :: es =>
    match read_entry e with
    | .error m => .error m
    | .ok content =>
      if str_contains content ("sanitize") || str_contains content ("validate") ||
          str_contains content ("SecurityManager") then
        .ok true
      else bridge_validation_loop es

def check_bridge_input_validation (fs : FS) : Except String Bool :=
  bridge_validation_loop (fs.rglob ("src") (".rs"))

/-- `_check_mcp_input_validation`: package.json libraries first, then
case-insensitive markers over MCP sources. -/
def mcp_validation_loop : List FileEntry → Except String Bool
  | [] => .ok false
  | e :: es =>
    match read_entry e with
    | .error m => .error m
    | .ok content =>
      if str_contains_lower content ("validate") || str_contains_lower content ("sanitize") then
        .ok true
      else mcp_validation_loop es

def check_mcp_input_validation (fs : FS) : Except String Bool :=
  match fs.lookup ("mcp-server/package.json") with
  | some e =>
    (match read_entry e with
     | .error m => .error m
     | .ok content =>
       if str_contains_lower content ("joi") || str_contains_lower content ("validator") then
         .ok true
       else mcp_validation_loop (fs.rglob ("mcp-server/src") (".ts")))
  | none => mcp_validation_loop (fs.rglob ("mcp-server/src") (".ts"))

/-- `check_input_validation`: presence check, +5 per component. -/
def check_input_validation : CheckFun := fun fs r =>
  match check_bridge_input_validation fs with
  | .error m => (r, .error m)
  | .ok bridgeOk =>
    let sr : Int × Results :=
      if bridgeOk then (5, r)
      else (0, log_issue r ("BridgeValidation") ("high")
        ("Bridge input validation not comprehensive")
        ("Implement comprehensive input sanitization"))
    match check_mcp_input_validation fs with
    | .error m => (sr.2, .error m)
    | .ok mcpOk =>
      let sr : Int × Results :=
        if mcpOk then (sr.1 + 5, sr.2)
        else (sr.1, log_issue sr.2 ("MCPValidation") ("high")
          ("MCP Server input validation not found")
          ("Implement input validation with Joi or similar"))
      (set_score sr.2 ("input_validation") sr.1, .ok sr.1)

/-- The sensitive-log rules of `check_logging_security`: regex `a.*b` parts
and the issue description. -/
def log_patterns : List (String × String × String) :=
  [("log", "password", "Password in logs"), ("log", "token", "Token in logs"),
   ("log", "key", "Key in logs"), ("println!", "password", "Password in Rust logs"),
   ("console.log", "password", "Password in JS logs")]

/-- Rule loop of `check_logging_security` on one decoded file: subtract 2
per matching rule, no lower clamp. -/
def logging_rules_fold : List (String × String × String) → String → String → Int → Results → Int × Results
  | [], _, _, score, r => (score, r)
  | (a, b, d) :: rest, content, path, score, r =>
    if log_pattern_match a b content then
      logging_rules_fold rest content path (score - 2)
        (log_issue r ("LoggingSecurity") ("medium")
          (d ++ " in " ++ path) ("Remove sensitive data from logs"))
    else logging_rules_fold rest content path score r

/-- File loop of `check_logging_security`: read failures are swallowed. -/
def logging_files_fold : List FileEntry → Int → Results → Int × Results
  | [], score, r => (score, r)
  | e :: es, score, r =>
    match e.data with
    | .unreadable => logging_files_fold es score r
    | .text content =>
      let sr := logging_rules_fold log_patterns content e.path score r
      logging_files_fold es sr.1 sr.2

/-- `check_logging_security`: start at 10, subtract 2 per file-rule match. -/
def check_logging_security : CheckFun := fun fs r =>
  let files := fs.rglob ("src") (".rs") ++ fs.rglob ("mcp-server/src") (".ts")
  let sr := logging_files_fold files 10 r
  (set_score sr.2 ("logging_security") sr.1, .ok sr.1)

/-- `check_dependency_security`: presence check over lock files, audit
scripts and security dependencies; `json.loads` failures propagate. -/
def check_dependency_security : CheckFun := fun fs r =>
  let sr : Int × Results :=
    if fs.pathExists ("Cargo.lock") then (2, r)
    else (0, log_issue r ("BridgeDeps") ("medium")
      ("Cargo.lock not found") ("Run cargo build to generate Cargo.lock"))
  let sr : Int × Results :=
    if fs.pathExists ("mcp-server/package-lock.json") then (sr.1 + 2, sr.2)
    else (sr.1, log_issue sr.2 ("MCPDeps") ("medium")
      ("package-lock.json not found") ("Run npm install to generate package-lock.json"))
  if fs.pathExists ("mcp-server/package.json") then
    match fs.readPath ("mcp-server/package.json") with
    | .error m => (sr.2, .error m)
    | .ok _ =>
      match fs.pkgJson with
      | none => (sr.2, .error ("invalid json: mcp-server/package.json"))
      | some info =>
        let sr : Int × Results :=
          if info.scriptsKeys.any (fun k => str_contains k ("audit")) then (sr.1 + 3, sr.2)
          else (sr.1, log_recommendation sr.2 ("MCPDeps")
            ("Add npm audit scripts to package.json"))
        let sr : Int × Results :=
          if info.depsKeys.any (fun k => k == "helmet") ||
              info.depsKeys.any (fun k => k == "express-rate-limit") then (sr.1 + 3, sr.2)
          else (sr.1, log_recommendation sr.2 ("MCPDeps")
            ("Consider adding security dependencies like helmet"))
        (set_score sr.2 ("dependency_security") sr.1, .ok sr.1)
  else (set_score sr.2 ("dependency_security") sr.1, .ok sr.1)

def security_workflows : List String :=
  ["security-enhanced.yml", "scorecard.yml", "slsa-provenance.yml"]

/-- Named-workflow loop of `check_ci_security`: +3 per present workflow. -/
def ci_named_fold : List String → FS → Int → Results → Int × Results
  | [], _, score, r => (score, r)
  | w :: ws, fs, score, r =>
    if fs.pathExists (".github/workflows/" ++ w) then ci_named_fold ws fs (score + 3) r
    else ci_named_fold ws fs score
      (log_recommendation r ("CI/CD") ("Consider adding " ++ w ++ " security workflow"))

/-- Workflow-permissions loop of `check_ci_security`: +1 per yml file with a
permissions block; `read_text` failures propagate (no try/except). -/
def ci_yml_fold : List FileEntry → Int → Except String Int
  | [], score => .ok score
  | e :: es, score =>
    match read_entry e with
    | .error m => .error m
    | .ok content =>
      ci_yml_fold es (if str_contains content ("permissions:") then score + 1 else score)

/-- `check_ci_security`: presence check over workflows, capped at 10. -/
def check_ci_security : CheckFun := fun fs r =>
  let step : Results × Except String Int :=
    if fs.dirExists (".github/workflows") then
      let sr := ci_named_fold security_workflows fs 0 r
      match ci_yml_fold (fs.globDirect (".github/workflows") (".yml")) sr.1 with
      | .error m => (sr.2, .error m)
      | .ok score => (sr.2, .ok score)
    else
      (log_issue r ("CI/CD") ("medium")
        ("No CI/CD workflows found") ("Set up GitHub Actions workflows for security"), .ok 0)
  match step with
  | (r2, .error m) => (r2, .error m)
  | (r2, .ok score) =>
    let score := min score 10
    (set_score r2 ("ci_security") score, .ok score)

/-! ## Runner and report assembly -/

/-- The registered checks, in registration order (`run_all_checks`). -/
def checks_list : List (String × CheckFun) :=
  [("File Permissions", check_file_permissions),
   ("Environment Variables", check_environment_variables),
   ("Authentication", check_authentication_config),
   ("Rate Limiting", check_rate_limiting),
   ("Input Validation", check_input_validation),
   ("Logging Security", check_logging_security),
   ("Dependency Security", check_dependency_security),
   ("CI/CD Security", check_ci_security)]

/-- The runner's per-check step: on an exception, log a critical
`SystemError` issue and continue; no score is recorded for a failed check. -/
def run_check (name : String) (f : CheckFun) (fs : FS) (r : Results) : Results :=
  match f fs r with
  | (r2, .ok _) => r2
  | (r2, .error m) =>
    log_issue r2 ("SystemError") ("critical") ("Check failed: " ++ name ++ " - " ++ m) ("")

/-- The runner's loop over the registered checks. -/
def run_checks : List (String × CheckFun) → FS → Results → Results
  | [], _, r => r
  | (n, f) :: rest, fs, r => run_checks rest fs (run_check n f fs r)

/-- `run_all_checks` up to the final `generate_report` call. -/
def run_all_checks (fs : FS) : Results := run_checks checks_list fs empty_results

/-- The status band of `generate_report` (inclusive lower bounds). -/
def overall_band (p : Rat) : String :=
  if 90 ≤ p then "excellent"
  else if 80 ≤ p then "good"
  else if 70 ≤ p then "fair"
  else if 60 ≤ p then "poor"
  else "critical"

/-- The final report value (`self.results` after `generate_report`). -/
structure Report where
  timestamp : String
  overall_status : String
  scores : List (String × Int)
  issues : List Issue
  recommendations : List Recommendation
  overall_score : Option Int
  max_score : Option Int
  percentage : Option Rat
deriving DecidableEq

def sum_scores (l : List (String × Int)) : Int := (l.map (fun p => p.2)).sum

/-- `generate_report`: totals, percentage and band from the recorded scores;
with no recorded scores the overall fields stay unset and the status stays
pending. The timestamp is the wall-clock time, passed in explicitly. -/
def generate_report (t : String) (r : Results) : Report :=
  if r.scores.isEmpty then
    ⟨t, "pending", r.scores, r.issues, r.recs, none, none, none⟩
  else
    let total := sum_scores r.scores
    let maxScore : Int := (r.scores.length : Int) * 10
    let pct : Rat := ((total : Rat) / (maxScore : Rat)) * 100
    ⟨t, overall_band pct, r.scores, r.issues, r.recs, some total, some maxScore, some pct⟩

/-- One full run: `run_all_checks` followed by `generate_report`. -/
def report_of_run (t : String) (fs : FS) : Report := generate_report t (run_all_checks fs)

/-! ## Scorecard comparison (`scorecard-compare.py`) -/

/-- One scorecard check record, with the fields the comparison reads
(`score`, `reason`, `documentation` may be absent). -/
structure ScCheck where
  name : String
  score : Option Rat
  reason : Option String
  doc : Option String
deriving DecidableEq

/-- One value of the `analysis` mapping built by `analyze_individual_checks`. -/
structure AnalysisEntry where
  current_score : Rat
  baseline_score : Rat
  diff : Rat
  status : String
  current_reason : String
  baseline_reason : String
  doc : Option String
deriving DecidableEq

/-- `calculate_score_diff`. -/
def calculate_score_diff (current baseline : Rat) : Rat × String :=
  let diff := current - baseline
  (diff, if diff > 0 then "improved" else if diff < 0 then "declined" else "unchanged")

/-- Python dict assignment `d[k] = v`: overwrite in place or append. -/
def dict_insert (d : List (String × ScCheck)) (k : String) (v : ScCheck) :
    List (String × ScCheck) :=
  if d.any (fun p => p.1 == k) then d.map (fun p => if p.1 == k then (k, v) else p)
  else d ++ [(k, v)]

/-- `{check['name']: check for check in checks}`: an insertion-ordered dict. -/
def build_dict (l : List ScCheck) : List (String × ScCheck) :=
  l.foldl (fun d c => dict_insert d c.name c) []

def dict_lookup (d : List (String × ScCheck)) (k : String) : Option ScCheck :=
  (d.find? (fun p => p.1 == k)).map (fun p => p.2)

def has_key (d : List (String × ScCheck)) (k : String) : Bool :=
  d.any (fun p => p.1 == k)

/-- The analysis value for a check present in the current scorecard. -/
def mk_current_entry (c : ScCheck) (b : Option ScCheck) : AnalysisEntry :=
  let cs := c.score.getD 0
  let bs := (b.map (fun x => x.score.getD 0)).getD 0
  let ds := calculate_score_diff cs bs
  ⟨cs, bs, ds.1, ds.2, c.reason.getD "", (b.map (fun x => x.reason.getD "")).getD "", c.doc⟩

/-- The analysis value for a check present only in the baseline. -/
def mk_missing_entry (b : ScCheck) : AnalysisEntry :=
  ⟨0, b.score.getD 0, -(b.score.getD 0), "missing",
   "Check not found in current results", b.reason.getD "", none⟩

/-- `analyze_individual_checks`: current checks first (in current dict order),
then the baseline-only checks (in baseline dict order). -/
def analyze_individual_checks (current baseline : List ScCheck) :
    List (String × AnalysisEntry) :=
  let bd := build_dict baseline
  let cd := build_dict current
  (cd.map (fun p => (p.1, mk_current_entry p.2 (dict_lookup bd p.1)))) ++
    ((bd.filter (fun p => !(has_key cd p.1))).map (fun p => (p.1, mk_missing_entry p.2)))

/-- One priority action emitted by `identify_priority_actions`. -/
structure PAction where
  check : String
  priority : String
  action : String
  current_score : Rat
  baseline_score : Rat
  diff : Rat
  reason : String
deriving DecidableEq

def security_critical_checks : List String :=
  ["Vulnerabilities", "Code-Review", "Branch-Protection", "Token-Permissions",
   "Dangerous-Workflow", "Security-Policy"]

/-- The loop body of `identify_priority_actions` for one analysis entry:
a declined check yields an investigate action, a missing check a restore
action, and otherwise a low-scoring security-critical check an improve
action; at most one action per entry (if/elif chain). -/
def actions_for (n : String) (d : AnalysisEntry) : List PAction :=
  if d.status == "declined" then
    [⟨n, if security_critical_checks.contains n then "high" else "medium",
      "investigate_decline", d.current_score, d.baseline_score, d.diff, d.current_reason⟩]
  else if d.status == "missing" then
    [⟨n, "high", "restore_check", d.current_score, d.baseline_score, d.diff, d.current_reason⟩]
  else if decide (d.current_score < 7) && security_critical_checks.contains n then
    [⟨n, "medium", "improve_security", d.current_score, d.baseline_score, d.diff, d.current_reason⟩]
  else []

/-- `priority_order` (total by default; only high/medium are ever emitted). -/
def priority_rank (p : String) : Nat :=
  if p == "high" then 0 else if p == "medium" then 1 else if p == "low" then 2 else 3

/-- The sort key `(priority_order[priority], diff)`. -/
def sort_key (a : PAction) : Nat × Rat := (priority_rank a.priority, a.diff)

/-- Lexicographic comparison on the sort key (Python tuple order). -/
def action_le (a b : PAction) : Bool :=
  decide ((sort_key a).1 < (sort_key b).1 ∨
    ((sort_key a).1 = (sort_key b).1 ∧ (sort_key a).2 ≤ (sort_key b).2))

/-- The action list before sorting, in analysis (emission) order. -/
def raw_actions (analysis : List (String × AnalysisEntry)) : List PAction :=
  (analysis.map (fun p => actions_for p.1 p.2)).flatten

/-- `identify_priority_actions`: emit actions in analysis order, then sort
stably by the key (Python `list.sort` is a stable sort). -/
def identify_priority_actions (analysis : List (String × AnalysisEntry)) : List PAction :=
  (raw_actions analysis).mergeSort action_le

/-! ## Auxiliary predicates and concrete snapshots used by the theorems -/

/-- The completed check's recorded score lies in `[lo, hi]` (vacuous when the
check raised, since then no score is recorded). -/
def score_within (out : Results × Except String Int) (lo hi : Int) : Prop :=
  match out.2 with
  | .ok s => lo ≤ s ∧ s ≤ hi
  | .error _ => True

/-- The completed check's recorded score is at most `hi`. -/
def score_at_most (out : Results × Except String Int) (hi : Int) : Prop :=
  match out.2 with
  | .ok s => s ≤ hi
  | .error _ => True

/-- A check only appends to the recorded scores. -/
def scores_extending (f : CheckFun) : Prop :=
  ∀ fs r, ∃ l, (f fs r).1.scores = r.scores ++ l

/-- Scenario A snapshot: one bridge source file with a hardcoded token and no
environment-access marker; both environment example files present. -/
def fsA : FS :=
  ⟨[⟨"src/app.rs", 420, .text "token = \"abcdefghijklmnopqrstuvwxyz\""⟩,
    ⟨"config.example.toml", 420, .text ""⟩,
    ⟨"mcp-server/.env.example", 420, .text ""⟩], none⟩

/-- Scenario B snapshot: the same file also contains the environment-access
marker `process.env`. -/
def fsB : FS :=
  ⟨[⟨"src/app.rs", 420, .text "token = \"abcdefghijklmnopqrstuvwxyz\"\nprocess.env"⟩,
    ⟨"config.example.toml", 420, .text ""⟩,
    ⟨"mcp-server/.env.example", 420, .text ""⟩], none⟩

/-- A snapshot with six sensitive-logging rule matches across two files. -/
def fsNeg : FS :=
  ⟨[⟨"src/a.rs", 420,
     .text "log password\nlog token\nlog key\nprintln! password\nconsole.log password"⟩,
    ⟨"src/b.rs", 420, .text "log password"⟩], none⟩

/-- A snapshot whose only file exists but cannot be read: the authentication,
rate-limiting and input-validation checks all raise on it. -/
def fsErr : FS := ⟨[⟨"src/telegram/handlers.rs", 420, .unreadable⟩], none⟩

/-- The empty project snapshot. -/
def fsEmpty : FS := ⟨[], none⟩

/-! ## Loop lemmas: the shared results accumulator is append-only -/

theorem log_issue_scores (r : Results) (a b c d : String) :
    (log_issue r a b c d).scores = r.scores := rfl

theorem log_recommendation_scores (r : Results) (a b : String) :
    (log_recommendation r a b).scores = r.scores := rfl

theorem secret_rules_fold_scores (pats : List SecretRule) :
    ∀ content path s r, (secret_rules_fold pats content path s r).2.scores = r.scores := by
  induction pats with
  | nil => intro content path s r; rfl
  | cons rule rest ih =>
    intro content path s r
    unfold secret_rules_fold
    split
    · exact (ih ..).trans rfl
    · exact ih ..

theorem check_file_for_patterns_scores (e : FileEntry) (pats : List SecretRule)
    (s : Int) (r : Results) : (check_file_for_patterns e pats s r).2.scores = r.scores := by
  unfold check_file_for_patterns
  cases e.data
  · exact secret_rules_fold_scores ..
  · rfl

theorem scan_src_files_scores (es : List FileEntry) :
    ∀ pats s r, (scan_src_files es pats s r).scores = r.scores := by
  induction es with
  | nil => intro pats s r; rfl
  | cons e rest ih =>
    intro pats s r
    unfold scan_src_files
    exact (ih ..).trans (check_file_for_patterns_scores ..)

theorem perm_fold_scores (ps : List String) :
    ∀ fs s r, (perm_fold ps fs s r).2.scores = r.scores := by
  induction ps with
  | nil => intro fs s r; rfl
  | cons p rest ih =>
    intro fs s r
    cases hl : fs.lookup p with
    | none => simp only [perm_fold, hl]; exact ih ..
    | some e =>
      simp only [perm_fold, hl]
      split
      · exact (ih ..).trans rfl
      · exact ih ..

theorem logging_rules_fold_scores (pats : List (String × String × String)) :
    ∀ content path s r, (logging_rules_fold pats content path s r).2.scores = r.scores := by
  induction pats with
  | nil => intro content path s r; rfl
  | cons rule rest ih =>
    intro content path s r
    obtain ⟨a, b, d⟩ := rule
    unfold logging_rules_fold
    split
    · exact (ih ..).trans rfl
    · exact ih ..

theorem logging_files_fold_scores (es : List FileEntry) :
    ∀ s r, (logging_files_fold es s r).2.scores = r.scores := by
  induction es with
  | nil => intro s r; rfl
  | cons e rest ih =>
    intro s r
    unfold logging_files_fold
    cases e.data
    · exact (ih ..).trans (logging_rules_fold_scores ..)
    · exact ih ..

theorem ci_named_fold_scores (ws : List String) :
    ∀ fs s r, (ci_named_fold ws fs s r).2.scores = r.scores := by
  induction ws with
  | nil => intro fs s r; rfl
  | cons w rest ih =>
    intro fs s r
    unfold ci_named_fold
    split
    · exact ih ..
    · exact (ih ..).trans rfl

/-! ## Loop lemmas: score bounds -/

theorem perm_fold_bounds (ps : List String) :
    ∀ fs s r, s - 2 * ps.length ≤ (perm_fold ps fs s r).1 ∧ (perm_fold ps fs s r).1 ≤ s := by
  induction ps with
  | nil => intro fs s r; constructor <;> simp [perm_fold]
  | cons p rest ih =>
    intro fs s r
    cases hl : fs.lookup p with
    | none =>
      simp only [perm_fold, hl, List.length_cons]
      have h := ih fs s r
      constructor
      · have := h.1; omega
      · exact h.2
    | some e =>
      simp only [perm_fold, hl, List.length_cons]
      split
      · have h := ih fs (s - 2)
          (log_issue r ("FilePermissions") ("warning")
            (p ++ " is readable by others (permissions: " ++ octal3 e.perm ++ ")")
            ("Run: chmod 600 " ++ p))
        constructor
        · have := h.1; omega
        · have := h.2; omega
      · have h := ih fs s r
        constructor
        · have := h.1; omega
        · exact h.2

theorem logging_rules_fold_le (pats : List (String × String × String)) :
    ∀ content path s r, (logging_rules_fold pats content path s r).1 ≤ s := by
  induction pats with
  | nil => intro content path s r; simp [logging_rules_fold]
  | cons rule rest ih =>
    intro content path s r
    obtain ⟨a, b, d⟩ := rule
    simp only [logging_rules_fold]
    split
    · have h := ih content path (s - 2)
        (log_issue r ("LoggingSecurity") ("medium")
          (d ++ " in " ++ path) ("Remove sensitive data from logs"))
      omega
    · exact ih ..

theorem logging_files_fold_le (es : List FileEntry) :
    ∀ s r, (logging_files_fold es s r).1 ≤ s := by
  induction es with
  | nil => intro s r; simp [logging_files_fold]
  | cons e rest ih =>
    intro s r
    cases hd : e.data with
    | text content =>
      simp only [logging_files_fold, hd]
      have h1 := ih (logging_rules_fold log_patterns content e.path s r).1
        (logging_rules_fold log_patterns content e.path s r).2
      have h2 := logging_rules_fold_le log_patterns content e.path s r
      omega
    | unreadable => simp only [logging_files_fold, hd]; exact ih ..

theorem ci_named_fold_bounds (ws : List String) :
    ∀ fs s r, s ≤ (ci_named_fold ws fs s r).1 := by
  induction ws with
  | nil => intro fs s r; simp [ci_named_fold]
  | cons w rest ih =>
    intro fs s r
    unfold ci_named_fold
    split
    · have := ih fs (s + 3) r; omega
    · exact ih ..

theorem ci_yml_fold_ge (es : List FileEntry) :
    ∀ s s2, ci_yml_fold es s = .ok s2 → s ≤ s2 := by
  induction es with
  | nil =>
    intro s s2 h
    simp only [ci_yml_fold] at h
    cases h
    omega
  | cons e rest ih =>
    intro s s2 h
    unfold ci_yml_fold at h
    cases hr : read_entry e with
    | error m => rw [hr] at h; cases h
    | ok content =>
      rw [hr] at h
      have := ih _ _ h
      split at this <;> omega

/-! ## Per-check lemmas: each check only appends its own score entry -/

theorem check_file_permissions_extending : scores_extending check_file_permissions := by
  intro fs r
  refine ⟨[("file_permissions", (perm_fold sensitive_files fs 10 r).1)], ?_⟩
  simp only [check_file_permissions, set_score]
  rw [perm_fold_scores]

theorem check_environment_variables_extending : scores_extending check_environment_variables := by
  intro fs r
  simp only [check_environment_variables, set_score]
  repeat' split
  all_goals exact ⟨_, by simp [scan_src_files_scores, log_recommendation_scores]; try rfl⟩

theorem check_authentication_config_extending : scores_extending check_authentication_config := by
  intro fs r
  cases hb : check_bridge_auth_config fs with
  | error m => exact ⟨[], by simp [check_authentication_config, hb]⟩
  | ok bridgeOk =>
    cases hm : check_mcp_auth_config fs with
    | error m =>
      simp only [check_authentication_config, hb, hm]
      repeat' split
      all_goals exact ⟨[], by simp [log_issue_scores]⟩
    | ok mcpOk =>
      simp only [check_authentication_config, hb, hm, set_score]
      repeat' split
      all_goals exact ⟨_, by simp [log_issue_scores]; try rfl⟩

theorem check_rate_limiting_extending : scores_extending check_rate_limiting := by
  intro fs r
  cases hb : check_bridge_rate_limiting fs with
  | error m => exact ⟨[], by simp [check_rate_limiting, hb]⟩
  | ok bridgeOk =>
    cases hm : check_mcp_rate_limiting fs with
    | error m =>
      simp only [check_rate_limiting, hb, hm]
      repeat' split
      all_goals exact ⟨[], by simp [log_issue_scores]⟩
    | ok mcpOk =>
      simp only [check_rate_limiting, hb, hm, set_score]
      repeat' split
      all_goals exact ⟨_, by simp [log_issue_scores]; try rfl⟩

theorem check_input_validation_extending : scores_extending check_input_validation := by
  intro fs r
  cases hb : check_bridge_input_validation fs with
  | error m => exact ⟨[], by simp [check_input_validation, hb]⟩
  | ok bridgeOk =>
    cases hm : check_mcp_input_validation fs with
    | error m =>
      simp only [check_input_validation, hb, hm]
      repeat' split
      all_goals exact ⟨[], by simp [log_issue_scores]⟩
    | ok mcpOk =>
      simp only [check_input_validation, hb, hm, set_score]
      repeat' split
      all_goals exact ⟨_, by simp [log_issue_scores]; try rfl⟩

theorem check_logging_security_extending : scores_extending check_logging_security := by
  intro fs r
  refine ⟨[("logging_security",
    (logging_files_fold (fs.rglob ("src") (".rs") ++ fs.rglob ("mcp-server/src") (".ts")) 10 r).1)], ?_⟩
  simp only [check_logging_security, set_score]
  rw [logging_files_fold_scores]

theorem check_dependency_security_extending : scores_extending check_dependency_security := by
  intro fs r
  simp only [check_dependency_security, set_score]
  repeat' split
  all_goals exact ⟨_, by simp [log_issue_scores, log_recommendation_scores]; try rfl⟩

theorem check_ci_security_extending : scores_extending check_ci_security := by
  intro fs r
  by_cases hd : fs.dirExists (".github/workflows") = true
  · cases hy : ci_yml_fold (fs.globDirect (".github/workflows") (".yml"))
        (ci_named_fold security_workflows fs 0 r).1 with
    | error m =>
      exact ⟨[], by simp [check_ci_security, hd, hy, ci_named_fold_scores]⟩
    | ok score =>
      exact ⟨_, by simp [check_ci_security, hd, hy, set_score, ci_named_fold_scores]; try rfl⟩
  · exact ⟨_, by simp [check_ci_security, hd, set_score, log_issue_scores]; try rfl⟩

theorem all_checks_extending : ∀ p ∈ checks_list, scores_extending p.2 := by
  intro p hp
  simp only [checks_list, List.mem_cons, List.mem_singleton] at hp
  rcases hp with h | h | h | h | h | h | h | h | h
  all_goals first
    | (subst h; exact check_file_permissions_extending)
    | (subst h; exact check_environment_variables_extending)
    | (subst h; exact check_authentication_config_extending)
    | (subst h; exact check_rate_limiting_extending)
    | (subst h; exact check_input_validation_extending)
    | (subst h; exact check_logging_security_extending)
    | (subst h; exact check_dependency_security_extending)
    | (subst h; exact check_ci_security_extending)
    | (exact absurd h (by simp))

theorem run_check_extending (n : String) (f : CheckFun) (hf : scores_extending f) :
    ∀ fs r, ∃ l, (run_check n f fs r).scores = r.scores ++ l := by
  intro fs r
  obtain ⟨l, hl⟩ := hf fs r
  cases hr : f fs r with
  | mk r2 st =>
    cases st with
    | ok s => exact ⟨l, by simpa [run_check, hr] using (by rw [hr] at hl; exact hl)⟩
    | error m =>
      refine ⟨l, ?_⟩
      simp only [run_check, hr, log_issue_scores]
      rw [hr] at hl
      exact hl

theorem run_checks_extending (cs : List (String × CheckFun))
    (hcs : ∀ p ∈ cs, scores_extending p.2) :
    ∀ fs r, ∃ l, (run_checks cs fs r).scores = r.scores ++ l := by
  induction cs with
  | nil => intro fs r; exact ⟨[], by simp [run_checks]⟩
  | cons p rest ih =>
    intro fs r
    obtain ⟨n, f⟩ := p
    obtain ⟨l1, h1⟩ := run_check_extending n f (hcs (n, f) (by simp)) fs r
    obtain ⟨l2, h2⟩ := ih (fun q hq => hcs q (by simp [hq])) fs (run_check n f fs r)
    exact ⟨l1 ++ l2, by simp only [run_checks, h2, h1, List.append_assoc]⟩

theorem run_all_checks_scores_ne_nil (fs : FS) : (run_all_checks fs).scores ≠ [] := by
  have hfirst : (run_check ("File Permissions") check_file_permissions fs empty_results).scores =
      [("file_permissions", (perm_fold sensitive_files fs 10 empty_results).1)] := by
    obtain ⟨l, hl⟩ := check_file_permissions_extending fs empty_results
    cases hr : check_file_permissions fs empty_results with
    | mk r2 st =>
      have hsc : r2.scores = [("file_permissions", (perm_fold sensitive_files fs 10 empty_results).1)] := by
        have := congrArg (fun q : Results × Except String Int => q.1.scores) hr
        simp only at this
        rw [← this]
        simp only [check_file_permissions, set_score]
        rw [perm_fold_scores]
        rfl
      cases st with
      | ok s => simp [run_check, hr, hsc]
      | error m => simp [run_check, hr, log_issue_scores, hsc]
  have hrest := run_checks_extending
    [("Environment Variables", check_environment_variables),
     ("Authentication", check_authentication_config),
     ("Rate Limiting", check_rate_limiting),
     ("Input Validation", check_input_validation),
     ("Logging Security", check_logging_security),
     ("Dependency Security", check_dependency_security),
     ("CI/CD Security", check_ci_security)]
    (by
      intro p hp
      have : p ∈ checks_list := by
        simp only [checks_list, List.mem_cons]
        simp only [List.mem_cons, List.mem_singleton] at hp
        tauto
      exact all_checks_extending p this)
    fs (run_check ("File Permissions") check_file_permissions fs empty_results)
  obtain ⟨l, hl⟩ := hrest
  have : run_all_checks fs = run_checks
      [("Environment Variables", check_environment_variables),
       ("Authentication", check_authentication_config),
       ("Rate Limiting", check_rate_limiting),
       ("Input Validation", check_input_validation),
       ("Logging Security", check_logging_security),
       ("Dependency Security", check_dependency_security),
       ("CI/CD Security", check_ci_security)]
      fs (run_check ("File Permissions") check_file_permissions fs empty_results) := rfl
  rw [this, hl, hfirst]
  simp

/-! ## Per-check score bounds -/

theorem check_file_permissions_within (fs : FS) (r : Results) :
    score_within (check_file_permissions fs r) 0 10 := by
  simp only [check_file_permissions, score_within]
  have h := perm_fold_bounds sensitive_files fs 10 r
  have hl : sensitive_files.length = 4 := rfl
  rw [hl] at h
  exact ⟨by have := h.1; omega, h.2⟩

theorem check_environment_variables_within (fs : FS) (r : Results) :
    score_within (check_environment_variables fs r) 0 10 := by
  simp only [check_environment_variables, score_within]
  repeat' split
  all_goals norm_num

theorem check_authentication_config_within (fs : FS) (r : Results) :
    score_within (check_authentication_config fs r) 0 10 := by
  cases hb : check_bridge_auth_config fs with
  | error m => simp [check_authentication_config, hb, score_within]
  | ok b =>
    cases hm : check_mcp_auth_config fs with
    | error m => simp [check_authentication_config, hb, hm, score_within]
    | ok b2 =>
      simp only [check_authentication_config, hb, hm, score_within]
      repeat' split
      all_goals norm_num

theorem check_rate_limiting_within (fs : FS) (r : Results) :
    score_within (check_rate_limiting fs r) 0 10 := by
  cases hb : check_bridge_rate_limiting fs with
  | error m => simp [check_rate_limiting, hb, score_within]
  | ok b =>
    cases hm : check_mcp_rate_limiting fs with
    | error m => simp [check_rate_limiting, hb, hm, score_within]
    | ok b2 =>
      simp only [check_rate_limiting, hb, hm, score_within]
      repeat' split
      all_goals norm_num

theorem check_input_validation_within (fs : FS) (r : Results) :
    score_within (check_input_validation fs r) 0 10 := by
  cases hb : check_bridge_input_validation fs with
  | error m => simp [check_input_validation, hb, score_within]
  | ok b =>
    cases hm : check_mcp_input_validation fs with
    | error m => simp [check_input_validation, hb, hm, score_within]
    | ok b2 =>
      simp only [check_input_validation, hb, hm, score_within]
      repeat' split
      all_goals norm_num

theorem check_logging_security_at_most (fs : FS) (r : Results) :
    score_at_most (check_logging_security fs r) 10 := by
  simp only [check_logging_security, score_at_most]
  exact logging_files_fold_le ..

theorem check_dependency_security_within (fs : FS) (r : Results) :
    score_within (check_dependency_security fs r) 0 10 := by
  by_cases hp : fs.pathExists ("mcp-server/package.json") = true
  · cases hr : fs.readPath ("mcp-server/package.json") with
    | error m => simp [check_dependency_security, hp, hr, score_within]
    | ok a =>
      cases hj : fs.pkgJson with
      | none => simp [check_dependency_security, hp, hr, hj, score_within]
      | some info =>
        simp only [check_dependency_security, hp, hr, hj, score_within, if_true]
        repeat' split
        all_goals norm_num
  · simp [check_dependency_security, hp, score_within]
    repeat' split
    all_goals norm_num

theorem check_ci_security_within (fs : FS) (r : Results) :
    score_within (check_ci_security fs r) 0 10 := by
  by_cases hd : fs.dirExists (".github/workflows") = true
  · cases hy : ci_yml_fold (fs.globDirect (".github/workflows") (".yml"))
        (ci_named_fold security_workflows fs 0 r).1 with
    | error m => simp [check_ci_security, hd, hy, score_within]
    | ok score =>
      have h0 : (0 : Int) ≤ (ci_named_fold security_workflows fs 0 r).1 :=
        ci_named_fold_bounds security_workflows fs 0 r
      have h1 := ci_yml_fold_ge (fs.globDirect (".github/workflows") (".yml"))
        (ci_named_fold security_workflows fs 0 r).1 score hy
      simp only [check_ci_security, hd, hy, score_within, if_true]
      constructor <;> omega
  · simp only [check_ci_security, hd, score_within]
    norm_num

/-! ## Claim theorems -/

/-- C1: for the secret-scanning (environment-variables) check the safe-marker
suppression and the single critical issue per matching rule behave as
specified, but the 3-point deduction is never applied: `_check_file_for_patterns`
computes and returns the deducted score (third conjunct: 7), while its caller
discards the return value, so the check's recorded score stays at its baseline
10 even when a hardcoded token is found (first conjunct); with the
environment-access marker present no issue is emitted (second conjunct). -/
theorem secret_scan_deduction_never_applied :
    check_environment_variables fsA empty_results =
      (⟨[("environment_variables", 10)],
        [⟨"HardcodedSecrets", "critical", "Hardcoded token found in src/app.rs",
          "Move secrets to environment variables"⟩], []⟩, Except.ok 10) ∧
    check_environment_variables fsB empty_results =
      (⟨[("environment_variables", 10)], [], []⟩, Except.ok 10) ∧
    (check_file_for_patterns ⟨"src/app.rs", 420, .text "token = \"abcdefghijklmnopqrstuvwxyz\""⟩
        hardcoded_patterns 10 empty_results).1 = 7 := by
  refine ⟨?_, ?_, ?_⟩ <;> rfl

/-- C2 (amended): every check's recorded score is at most 10, and every check
except logging hygiene also never records a score below 0; the logging-hygiene
check has no lower clamp. -/
theorem check_scores_bounded_except_logging (fs : FS) (r : Results) :
    score_within (check_file_permissions fs r) 0 10 ∧
    score_within (check_environment_variables fs r) 0 10 ∧
    score_within (check_authentication_config fs r) 0 10 ∧
    score_within (check_rate_limiting fs r) 0 10 ∧
    score_within (check_input_validation fs r) 0 10 ∧
    score_at_most (check_logging_security fs r) 10 ∧
    score_within (check_dependency_security fs r) 0 10 ∧
    score_within (check_ci_security fs r) 0 10 :=
  ⟨check_file_permissions_within fs r, check_environment_variables_within fs r,
   check_authentication_config_within fs r, check_rate_limiting_within fs r,
   check_input_validation_within fs r, check_logging_security_at_most fs r,
   check_dependency_security_within fs r, check_ci_security_within fs r⟩

/-- C2 counterexample: on a snapshot with six sensitive-logging matches the
logging-hygiene check records the score -2, outside the interval claimed. -/
theorem logging_score_below_zero :
    (check_logging_security fsNeg empty_results).1.scores = [("logging_security", -2)] ∧
    (check_logging_security fsNeg empty_results).2 = Except.ok (-2) :=
  ⟨rfl, rfl⟩

/-- C3 (amended): in every run's report the total equals the sum of the
per-check scores recorded in the report, and the maximum equals 10 times the
number of checks that recorded a score (8 only when no check raised). -/
theorem report_totals_match_recorded_scores (fs : FS) (t : String) :
    (report_of_run t fs).overall_score = some (sum_scores (report_of_run t fs).scores) ∧
    (report_of_run t fs).max_score = some (((report_of_run t fs).scores.length : Int) * 10) := by
  have hne : (run_all_checks fs).scores ≠ [] := run_all_checks_scores_ne_nil fs
  have hie : (run_all_checks fs).scores.isEmpty = false := by
    cases h : (run_all_checks fs).scores with
    | nil => exact absurd h hne
    | cons a l => rfl
  constructor <;> simp [report_of_run, generate_report, hie]

/-- C3 counterexample: on a snapshot where three checks raise, the report's
maximum possible score is 50, not 10 times the eight registered checks. -/
theorem report_max_not_eighty_on_failure :
    (report_of_run ("t") fsErr).max_score = some 50 ∧
    (report_of_run ("t") fsErr).max_score ≠ some 80 :=
  ⟨rfl, by decide⟩

/-- C4: the report's percentage equals 100 × total / max, its status band is
`overall_band` of that percentage, and the band thresholds are the inclusive
lower bounds 90/80/70/60 with the claimed boundary behavior. -/
theorem report_percentage_and_band (fs : FS) (t : String) :
    (∃ tot mx : Int, (report_of_run t fs).overall_score = some tot ∧
      (report_of_run t fs).max_score = some mx ∧
      (report_of_run t fs).percentage = some ((100 : Rat) * (tot : Rat) / (mx : Rat)) ∧
      (report_of_run t fs).overall_status = overall_band ((100 : Rat) * (tot : Rat) / (mx : Rat))) ∧
    (∀ p : Rat, (90 ≤ p → overall_band p = "excellent") ∧
      (80 ≤ p → p < 90 → overall_band p = "good") ∧
      (70 ≤ p → p < 80 → overall_band p = "fair") ∧
      (60 ≤ p → p < 70 → overall_band p = "poor") ∧
      (p < 60 → overall_band p = "critical")) ∧
    overall_band 70 = "fair" ∧ overall_band ((699 : Rat) / 10) = "poor" ∧
    overall_band 72 = "fair" ∧ overall_band 59 = "critical" := by
  refine ⟨?_, ?_, by norm_num [overall_band], by norm_num [overall_band],
    by norm_num [overall_band], by norm_num [overall_band]⟩
  · have hne : (run_all_checks fs).scores ≠ [] := run_all_checks_scores_ne_nil fs
    have hie : (run_all_checks fs).scores.isEmpty = false := by
      cases h : (run_all_checks fs).scores with
      | nil => exact absurd h hne
      | cons a l => rfl
    refine ⟨sum_scores (run_all_checks fs).scores,
      ((run_all_checks fs).scores.length : Int) * 10, ?_, ?_, ?_, ?_⟩
    all_goals simp [report_of_run, generate_report, hie]
    · ring
    · congr 1
      ring
  · intro p
    refine ⟨fun h1 => ?_, fun h1 h2 => ?_, fun h1 h2 => ?_, fun h1 h2 => ?_, fun h1 => ?_⟩
    all_goals unfold overall_band
    all_goals split_ifs <;> first | rfl | linarith

/-- C4 witness: the band characterization applied at concrete percentages. -/
theorem report_percentage_and_band_witness :
    overall_band 95 = "excellent" ∧ overall_band 85 = "good" ∧ overall_band 75 = "fair" ∧
    overall_band 65 = "poor" ∧ overall_band 30 = "critical" :=
  ⟨((report_percentage_and_band fsEmpty ("")).2.1 95).1 (by norm_num),
   ((report_percentage_and_band fsEmpty ("")).2.1 85).2.1 (by norm_num) (by norm_num),
   ((report_percentage_and_band fsEmpty ("")).2.1 75).2.2.1 (by norm_num) (by norm_num),
   ((report_percentage_and_band fsEmpty ("")).2.1 65).2.2.2.1 (by norm_num) (by norm_num),
   ((report_percentage_and_band fsEmpty ("")).2.1 30).2.2.2.2 (by norm_num)⟩

/-- C5 (amended): a check whose evaluation raises is caught by the runner,
converted to a critical SystemError issue, and the run continues with the
remaining checks; however no score (not even 0) is recorded for the failed
check, as the concrete failing run shows. -/
theorem runner_catches_and_continues_without_score :
    (∀ (n : String) (f : CheckFun) (fs : FS) (r r2 : Results) (m : String),
      f fs r = (r2, Except.error m) →
      run_check n f fs r =
        log_issue r2 ("SystemError") ("critical") ("Check failed: " ++ n ++ " - " ++ m) ("") ∧
      (run_check n f fs r).scores = r2.scores) ∧
    (∀ (n : String) (f : CheckFun) (rest : List (String × CheckFun)) (fs : FS) (r : Results),
      run_checks ((n, f) :: rest) fs r = run_checks rest fs (run_check n f fs r)) ∧
    (run_all_checks fsErr).scores =
      [("file_permissions", 10), ("environment_variables", 8), ("logging_security", 10),
       ("dependency_security", 0), ("ci_security", 0)] ∧
    ((run_all_checks fsErr).issues.filter
      (fun i => i.component == "SystemError" && i.severity == "critical")).length = 3 := by
  refine ⟨?_, ?_, rfl, rfl⟩
  · intro n f fs r r2 m h
    constructor
    · simp [run_check, h]
    · simp [run_check, h, log_issue_scores]
  · intro n f rest fs r
    rfl

/-- C5 witness: the runner's catch applied to the authentication check raising
on an unreadable file. -/
theorem runner_catches_witness :
    run_check ("Authentication") check_authentication_config fsErr empty_results =
      log_issue empty_results ("SystemError") ("critical")
        ("Check failed: Authentication - unreadable: src/telegram/handlers.rs") ("") :=
  ((runner_catches_and_continues_without_score).1 ("Authentication")
    check_authentication_config fsErr empty_results empty_results
    ("unreadable: src/telegram/handlers.rs") rfl).1

/-- C5 counterexample: the authentication check raises on this snapshot and
the run's recorded scores contain no entry (in particular not 0) for it. -/
theorem failed_check_score_not_recorded :
    check_authentication_config fsErr empty_results =
      (empty_results, Except.error ("unreadable: src/telegram/handlers.rs")) ∧
    ((run_all_checks fsErr).scores.filter (fun p => p.1 == "authentication")) = [] ∧
    (run_all_checks fsErr).scores.length = 5 :=
  ⟨rfl, rfl, rfl⟩

/-- C6 (amended): a per-file read failure is recovered locally only in the
content-pattern scans: the secret scan and the logging-hygiene file loop treat
an unreadable file as contributing zero matches with no issue; in the presence
checks (authentication, rate limiting, input validation) a read failure
propagates out of the check (it is caught only later, by the runner). -/
theorem read_failures_recovered_only_in_pattern_scans :
    (∀ (e : FileEntry) (pats : List SecretRule) (s : Int) (r : Results),
      e.data = FileData.unreadable → check_file_for_patterns e pats s r = (s, r)) ∧
    (∀ (e : FileEntry) (es : List FileEntry) (s : Int) (r : Results),
      e.data = FileData.unreadable → logging_files_fold (e :: es) s r = logging_files_fold es s r) ∧
    (check_authentication_config fsErr empty_results).2 =
      Except.error ("unreadable: src/telegram/handlers.rs") ∧
    (check_rate_limiting fsErr empty_results).2 =
      Except.error ("unreadable: src/telegram/handlers.rs") ∧
    (check_input_validation fsErr empty_results).2 =
      Except.error ("unreadable: src/telegram/handlers.rs") := by
  refine ⟨?_, ?_, rfl, rfl, rfl⟩
  · intro e pats s r h
    simp [check_file_for_patterns, h]
  · intro e es s r h
    simp [logging_files_fold, h]

/-- C6 witness: the recovery conjuncts applied to a concrete unreadable file. -/
theorem read_failures_recovered_witness :
    check_file_for_patterns ⟨"src/x.rs", 420, FileData.unreadable⟩ hardcoded_patterns 10
        empty_results = (10, empty_results) ∧
    logging_files_fold [⟨"src/x.rs", 420, FileData.unreadable⟩] 10 empty_results =
      logging_files_fold [] 10 empty_results :=
  ⟨(read_failures_recovered_only_in_pattern_scans).1 ⟨"src/x.rs", 420, FileData.unreadable⟩
      hardcoded_patterns 10 empty_results rfl,
   (read_failures_recovered_only_in_pattern_scans).2.1 ⟨"src/x.rs", 420, FileData.unreadable⟩
      [] 10 empty_results rfl⟩

/-- C6 counterexample: on a snapshot whose only file is unreadable, the
authentication check does not complete normally (a read failure escapes it),
and the failure does surface as logged issues in the run. -/
theorem auth_check_read_failure_escapes :
    (check_authentication_config fsErr empty_results).2 =
      Except.error ("unreadable: src/telegram/handlers.rs") ∧
    ((run_all_checks fsErr).issues.filter (fun i => i.component == "SystemError")).length = 3 :=
  ⟨rfl, rfl⟩

/-- C7 (amended): two runs over an unchanged snapshot agree on every report
field except the timestamp: same scores, issues, recommendations (content and
order), status, totals and percentage. -/
theorem rerun_reports_equal_except_timestamp (fs : FS) (t1 t2 : String) :
    (report_of_run t1 fs).overall_status = (report_of_run t2 fs).overall_status ∧
    (report_of_run t1 fs).scores = (report_of_run t2 fs).scores ∧
    (report_of_run t1 fs).issues = (report_of_run t2 fs).issues ∧
    (report_of_run t1 fs).recommendations = (report_of_run t2 fs).recommendations ∧
    (report_of_run t1 fs).overall_score = (report_of_run t2 fs).overall_score ∧
    (report_of_run t1 fs).max_score = (report_of_run t2 fs).max_score ∧
    (report_of_run t1 fs).percentage = (report_of_run t2 fs).percentage := by
  simp only [report_of_run, generate_report]
  split <;> simp

/-- C7 counterexample: the two runs' reports are not identical values, because
the timestamp field records the wall-clock time of each run. -/
theorem rerun_reports_differ_in_timestamp :
    report_of_run ("2025-01-01T00:00:00") fsEmpty ≠
      report_of_run ("2025-01-01T00:00:01") fsEmpty := by
  decide

/-! ## Priority-ranking lemmas -/

theorem action_le_trans (a b c : PAction) :
    action_le a b = true → action_le b c = true → action_le a c = true := by
  simp only [action_le, decide_eq_true_eq]
  rintro (h1 | ⟨e1, d1⟩) (h2 | ⟨e2, d2⟩)
  · exact Or.inl (h1.trans h2)
  · exact Or.inl (e2 ▸ h1)
  · exact Or.inl (e1 ▸ h2)
  · exact Or.inr ⟨e1.trans e2, d1.trans d2⟩

theorem action_le_total (a b : PAction) : action_le a b || action_le b a := by
  simp only [Bool.or_eq_true, action_le, decide_eq_true_eq]
  rcases Nat.lt_trichotomy (sort_key a).1 (sort_key b).1 with h | h | h
  · exact Or.inl (Or.inl h)
  · rcases le_total (sort_key a).2 (sort_key b).2 with hd | hd
    · exact Or.inl (Or.inr ⟨h, hd⟩)
    · exact Or.inr (Or.inr ⟨h.symm, hd⟩)
  · exact Or.inr (Or.inl h)

theorem action_le_of_key_eq (a b : PAction) (h : sort_key a = sort_key b) :
    action_le a b = true := by
  simp only [action_le, decide_eq_true_eq]
  exact Or.inr ⟨congrArg Prod.fst h, le_of_eq (congrArg Prod.snd h)⟩

/-! ## Claim theorems for the scorecard comparison -/

/-- C8: a check present in the baseline but absent from the current results
yields a high-priority restore action whose score difference is the negation
of the baseline score. -/
theorem missing_baseline_check_restore_action (current baseline : List ScCheck)
    (name : String)
    (hb : has_key (build_dict baseline) name = true)
    (hc : has_key (build_dict current) name = false) :
    ∃ a ∈ identify_priority_actions (analyze_individual_checks current baseline),
      a.check = name ∧ a.priority = "high" ∧ a.action = "restore_check" ∧
      a.diff = -(((dict_lookup (build_dict baseline) name).map
        (fun c => c.score.getD 0)).getD 0) := by
  have hsome : ((build_dict baseline).find? (fun p => p.1 == name)).isSome := by
    simp only [has_key, List.any_eq_true] at hb
    obtain ⟨p, hp, hpe⟩ := hb
    exact List.find?_isSome.mpr ⟨p, hp, hpe⟩
  obtain ⟨pr, hfind⟩ := Option.isSome_iff_exists.mp hsome
  have hmem : pr ∈ build_dict baseline := List.mem_of_find?_eq_some hfind
  have hpn : pr.1 = name := by
    have := List.find?_some hfind
    simpa using this
  have hlook : dict_lookup (build_dict baseline) name = some pr.2 := by
    simp [dict_lookup, hfind]
  have hmem2 : pr ∈ (build_dict baseline).filter
      (fun p => !(has_key (build_dict current) p.1)) :=
    List.mem_filter.mpr ⟨hmem, by simp [hpn, hc]⟩
  have hmem3 : (pr.1, mk_missing_entry pr.2) ∈ analyze_individual_checks current baseline := by
    unfold analyze_individual_checks
    exact List.mem_append_right _ (List.mem_map.mpr ⟨pr, hmem2, rfl⟩)
  have hact : actions_for pr.1 (mk_missing_entry pr.2) =
      [⟨pr.1, "high", "restore_check", 0, pr.2.score.getD 0, -(pr.2.score.getD 0),
        "Check not found in current results"⟩] := by
    simp [actions_for, mk_missing_entry]
  have hraw : (⟨pr.1, "high", "restore_check", 0, pr.2.score.getD 0, -(pr.2.score.getD 0),
      "Check not found in current results"⟩ : PAction) ∈
      raw_actions (analyze_individual_checks current baseline) := by
    unfold raw_actions
    apply List.mem_flatten.mpr
    refine ⟨_, List.mem_map.mpr ⟨(pr.1, mk_missing_entry pr.2), hmem3, rfl⟩, ?_⟩
    rw [hact]
    simp
  refine ⟨⟨pr.1, "high", "restore_check", 0, pr.2.score.getD 0, -(pr.2.score.getD 0),
    "Check not found in current results"⟩, ?_, hpn, rfl, rfl, ?_⟩
  · unfold identify_priority_actions
    exact (List.mergeSort_perm _ _).mem_iff.mpr hraw
  · simp [hlook]

/-- C8 witness: a baseline check with score 8 missing from the current run
yields a high-priority restore action with difference -8. -/
theorem missing_baseline_check_restore_action_witness :
    ∃ a ∈ identify_priority_actions (analyze_individual_checks []
        [⟨"Code-Review", some 8, none, none⟩]),
      a.check = "Code-Review" ∧ a.priority = "high" ∧ a.action = "restore_check" ∧
      a.diff = -8 := by
  obtain ⟨a, hmem, h1, h2, h3, h4⟩ := missing_baseline_check_restore_action []
    [⟨"Code-Review", some 8, none, none⟩] ("Code-Review") (by decide) (by decide)
  refine ⟨a, hmem, h1, h2, h3, ?_⟩
  rw [h4]
  decide

/-- C9: the priority-action list is sorted by the key (priority rank
ascending, then score difference ascending), the sort is stable (for every
key value, the actions with that key appear in their original emission order),
and ranking the same analysis twice yields the same sequence. -/
theorem priority_actions_sorted_and_stable (analysis : List (String × AnalysisEntry)) :
    List.Pairwise (fun a b => action_le a b = true) (identify_priority_actions analysis) ∧
    (∀ k : Nat × Rat,
      (identify_priority_actions analysis).filter (fun a => decide (sort_key a = k)) =
        (raw_actions analysis).filter (fun a => decide (sort_key a = k))) ∧
    identify_priority_actions analysis = identify_priority_actions analysis := by
  refine ⟨?_, ?_, rfl⟩
  · exact List.sorted_mergeSort action_le_trans action_le_total _
  · intro k
    have hF : ((raw_actions analysis).filter (fun a => decide (sort_key a = k))).Pairwise
        (fun a b => action_le a b = true) := by
      apply List.pairwise_of_forall_mem_list
      intro a ha b hb
      have hka : sort_key a = k := by simpa using (List.mem_filter.mp ha).2
      have hkb : sort_key b = k := by simpa using (List.mem_filter.mp hb).2
      exact action_le_of_key_eq a b (hka.trans hkb.symm)
    have hsub : List.Sublist ((raw_actions analysis).filter (fun a => decide (sort_key a = k)))
        (identify_priority_actions analysis) :=
      List.sublist_mergeSort action_le_trans action_le_total hF (List.filter_sublist _)
    have hself : ((raw_actions analysis).filter (fun a => decide (sort_key a = k))).filter
        (fun a => decide (sort_key a = k)) =
        (raw_actions analysis).filter (fun a => decide (sort_key a = k)) :=
      List.filter_eq_self.mpr (fun a ha => (List.mem_filter.mp ha).2)
    have hsub2 := hsub.filter (fun a => decide (sort_key a = k))
    rw [hself] at hsub2
    have hperm : List.Perm
        ((identify_priority_actions analysis).filter (fun a => decide (sort_key a = k)))
        ((raw_actions analysis).filter (fun a => decide (sort_key a = k))) :=
      (List.mergeSort_perm _ _).filter _
    exact (hsub2.eq_of_length hperm.length_eq.symm).symm

/-- C10: each analysis entry yields at most one priority action; a declined
entry yields exactly the investigate action (never an additional
improve-security action), and an improved or unchanged entry with score at
least 7, or one outside the security-critical subset, yields none. -/
theorem at_most_one_action_per_check (n : String) (d : AnalysisEntry) :
    (actions_for n d).length ≤ 1 ∧
    (d.status = "declined" →
      actions_for n d = [⟨n, if security_critical_checks.contains n then "high" else "medium",
        "investigate_decline", d.current_score, d.baseline_score, d.diff, d.current_reason⟩]) ∧
    ((d.status = "improved" ∨ d.status = "unchanged") →
      (7 ≤ d.current_score ∨ security_critical_checks.contains n = false) →
      actions_for n d = []) := by
  refine ⟨?_, ?_, ?_⟩
  · unfold actions_for
    repeat' split
    all_goals simp
  · intro h
    simp [actions_for, h]
  · intro h hc
    have hst1 : (d.status == "declined") = false := by
      rcases h with h | h <;> simp [h]
    have hst2 : (d.status == "missing") = false := by
      rcases h with h | h <;> simp [h]
    rcases hc with hs | hn
    · have hdec : decide (d.current_score < 7) = false := decide_eq_false (not_lt.mpr hs)
      simp [actions_for, hst1, hst2, hdec]
    · have hnm : n ∉ security_critical_checks := by simpa using hn
      simp [actions_for, hst1, hst2, hnm]

/-- C10 witness: a declined security-critical check with a current score below
7 yields only the investigate action, and an improved check with score at
least 7 yields none. -/
theorem at_most_one_action_per_check_witness :
    actions_for ("Code-Review") ⟨3, 9, -6, "declined", "r", "", none⟩ =
      [⟨"Code-Review", "high", "investigate_decline", 3, 9, -6, "r"⟩] ∧
    actions_for ("Security-Policy") ⟨8, 1, 7, "improved", "", "", none⟩ = [] := by
  constructor
  · have h := (at_most_one_action_per_check ("Code-Review")
      ⟨3, 9, -6, "declined", "r", "", none⟩).2.1 rfl
    rw [h]
    decide
  · exact (at_most_one_action_per_check ("Security-Policy")
      ⟨8, 1, 7, "improved", "", "", none⟩).2.2 (Or.inl rfl) (Or.inl (by norm_num))
